import Mathlib

/-!
Verification development for the classroom-interface 3D scene editor.

The definitions below are a shallow embedding of the TypeScript sources:

* src/services/firestoreService.ts — the geometry codec
  (serializeGeometry / deserializeGeometry / isCustomGeometry /
  objectToFirestore / firestoreToObject);
* src/store/sceneStore.ts — the scene state store (object/group/light CRUD,
  lock cascade, history engine, vertex drag welding).

Modelling conventions:

* JavaScript numbers are modelled as ℚ (exact rational arithmetic stands in
  for IEEE doubles; every comparison the claims depend on is order-based);
* a JS object field that may be `undefined` is an `Option`;
* THREE.js buffer attributes of itemSize 3 are lists of `Vec3` (the
  attribute abstraction: `count` = list length, `getX/getY/getZ` = the
  components); the raw `Float32Array` view of such an attribute is its
  flattening; the uv attribute is kept as its raw array since no modelled
  operation reads it per component;
* heap identity of THREE objects is modelled by the owning entry's local id
  (selection stores the selected entry's id; in-place geometry mutation is a
  functional update of the owning entry);
* asynchronous write-backs are modelled by passing their outcome as an
  explicit argument; local state transitions are the sequential composition
  the single-threaded event loop performs.
-/

namespace SceneModel

/-- Rational addition, implemented through `mkRat` so that concrete instances
evaluate inside the kernel; `qadd_eq` shows it is ordinary addition on ℚ. -/
def qadd (a b : ℚ) : ℚ := mkRat (a.num * b.den + b.num * a.den) (a.den * b.den)

def qsub (a b : ℚ) : ℚ := mkRat (a.num * b.den - b.num * a.den) (a.den * b.den)

def qmul (a b : ℚ) : ℚ := mkRat (a.num * b.num) (a.den * b.den)

theorem qadd_eq (a b : ℚ) : qadd a b = a + b := by
  rw [Rat.add_def, qadd, mkRat, dif_neg (Nat.mul_ne_zero a.den_nz b.den_nz)]

theorem qsub_eq (a b : ℚ) : qsub a b = a - b := by
  rw [Rat.sub_def, qsub, mkRat, dif_neg (Nat.mul_ne_zero a.den_nz b.den_nz)]

theorem qmul_eq (a b : ℚ) : qmul a b = a * b := by
  rw [Rat.mul_def, qmul, mkRat, dif_neg (Nat.mul_ne_zero a.den_nz b.den_nz)]

/-- The IEEE-754 double value of `Math.PI`, as an exact rational. -/
def mathPI : ℚ := mkRat 884279719003555 281474976710656

structure Vec3 where
  x : ℚ
  y : ℚ
  z : ℚ
deriving DecidableEq, Repr

def vadd (a b : Vec3) : Vec3 := ⟨qadd a.x b.x, qadd a.y b.y, qadd a.z b.z⟩

def vsub (a b : Vec3) : Vec3 := ⟨qsub a.x b.x, qsub a.y b.y, qsub a.z b.z⟩

def cross (a b : Vec3) : Vec3 :=
  ⟨qsub (qmul a.y b.z) (qmul a.z b.y),
   qsub (qmul a.z b.x) (qmul a.x b.z),
   qsub (qmul a.x b.y) (qmul a.y b.x)⟩

/-- Squared Euclidean distance.  `p.distanceTo(q) < eps` (with `eps > 0`) is
modelled as `sqDist p q < eps ^ 2`, which is equivalent over the reals and
avoids the irrational square root. -/
def sqDist (a b : Vec3) : ℚ :=
  qadd (qadd (qmul (qsub a.x b.x) (qsub a.x b.x)) (qmul (qsub a.y b.y) (qsub a.y b.y)))
    (qmul (qsub a.z b.z) (qsub a.z b.z))

theorem sqDist_eq (a b : Vec3) :
    sqDist a b = (a.x - b.x) ^ 2 + (a.y - b.y) ^ 2 + (a.z - b.z) ^ 2 := by
  simp only [sqDist, qadd_eq, qsub_eq, qmul_eq, sq]

def v0 : Vec3 := ⟨0, 0, 0⟩

/-- Runtime class of a THREE geometry object, as probed by `instanceof`. -/
inductive GeomKind where
  | box
  | sphere
  | cylinder
  | cone
  | torus
  | buffer
deriving DecidableEq, Repr

def isBoxInstance : GeomKind → Bool
  | .box => true
  | _ => false

def isSphereInstance : GeomKind → Bool
  | .sphere => true
  | _ => false

/-- THREE.ConeGeometry extends THREE.CylinderGeometry, so a cone satisfies
`geometry instanceof THREE.CylinderGeometry`. -/
def isCylinderInstance : GeomKind → Bool
  | .cylinder => true
  | .cone => true
  | _ => false

def isConeInstance : GeomKind → Bool
  | .cone => true
  | _ => false

def isTorusInstance : GeomKind → Bool
  | .torus => true
  | _ => false

/-- The dynamic `parameters` bag carried by THREE geometries and by persisted
`geometryParams` / `customGeometry.parameters` records.  Each field is a JS
property that may be `undefined`. -/
structure GeomParams where
  width : Option ℚ
  height : Option ℚ
  depth : Option ℚ
  radius : Option ℚ
  widthSegments : Option ℚ
  heightSegments : Option ℚ
  radiusTop : Option ℚ
  radiusBottom : Option ℚ
  radialSegments : Option ℚ
  tube : Option ℚ
  tubularSegments : Option ℚ
  arc : Option ℚ
deriving DecidableEq, Repr

def GeomParams.empty : GeomParams :=
  { width := none, height := none, depth := none, radius := none,
    widthSegments := none, heightSegments := none, radiusTop := none,
    radiusBottom := none, radialSegments := none, tube := none,
    tubularSegments := none, arc := none }

/-- A THREE.BufferGeometry: runtime class, `parameters` bag (absent on plain
BufferGeometry), position/normal attributes (itemSize 3), raw uv array and
index array (`[]` models an absent attribute, matching every emptiness test
in the sources). -/
structure ThreeGeometry where
  cls : GeomKind
  params : Option GeomParams
  positions : List Vec3
  normals : List Vec3
  uvs : List ℚ
  indices : List ℕ
deriving DecidableEq, Repr

/-- THREE.BoxGeometry: constructor defaults width = height = depth = 1 are
substituted before `parameters` is stored.  The tessellated vertex buffers of
the parametric constructors are not modelled: no operation verified here ever
reads them. -/
def boxGeometry (width height depth : Option ℚ) : ThreeGeometry :=
  { cls := .box,
    params := some { GeomParams.empty with
      width := some (width.getD 1), height := some (height.getD 1),
      depth := some (depth.getD 1) },
    positions := [], normals := [], uvs := [], indices := [] }

/-- THREE.SphereGeometry: constructor defaults radius 1, widthSegments 32,
heightSegments 16 (stored in `parameters` before segment clamping). -/
def sphereGeometry (radius widthSegments heightSegments : Option ℚ) : ThreeGeometry :=
  { cls := .sphere,
    params := some { GeomParams.empty with
      radius := some (radius.getD 1), widthSegments := some (widthSegments.getD 32),
      heightSegments := some (heightSegments.getD 16) },
    positions := [], normals := [], uvs := [], indices := [] }

/-- THREE.CylinderGeometry: constructor defaults radiusTop 1, radiusBottom 1,
height 1, radialSegments 32. -/
def cylinderGeometry (radiusTop radiusBottom height radialSegments : Option ℚ) : ThreeGeometry :=
  { cls := .cylinder,
    params := some { GeomParams.empty with
      radiusTop := some (radiusTop.getD 1), radiusBottom := some (radiusBottom.getD 1),
      height := some (height.getD 1), radialSegments := some (radialSegments.getD 32) },
    positions := [], normals := [], uvs := [], indices := [] }

/-- THREE.ConeGeometry: defaults radius 1, height 1, radialSegments 32.  It
calls the cylinder constructor but overwrites `parameters` with a
radius-keyed record, and its runtime class is a subclass of
CylinderGeometry. -/
def coneGeometry (radius height radialSegments : Option ℚ) : ThreeGeometry :=
  { cls := .cone,
    params := some { GeomParams.empty with
      radius := some (radius.getD 1), height := some (height.getD 1),
      radialSegments := some (radialSegments.getD 32) },
    positions := [], normals := [], uvs := [], indices := [] }

/-- THREE.TorusGeometry; the arguments arrive already defaulted by the JS
`||` chains at the only call site. -/
def torusGeometry (radius tube radialSegments tubularSegments arc : ℚ) : ThreeGeometry :=
  { cls := .torus,
    params := some { GeomParams.empty with
      radius := some radius, tube := some tube,
      radialSegments := some radialSegments,
      tubularSegments := some tubularSegments, arc := some arc },
    positions := [], normals := [], uvs := [], indices := [] }

/-- JS `v || d` on a possibly-undefined number: both `undefined` and `0` are
falsy. -/
def jsOr (v : Option ℚ) (d : ℚ) : ℚ :=
  match v with
  | none => d
  | some x => if x = 0 then d else x

/-- Flatten an itemSize-3 attribute into its raw array
(`Array.from(attribute.array)`). -/
def flat3 (l : List Vec3) : List ℚ :=
  l.foldr (fun v r => v.x :: v.y :: v.z :: r) []

/-- Group a raw array into an itemSize-3 attribute
(`new THREE.Float32BufferAttribute(arr, 3)`); a trailing fragment shorter
than 3 is not addressable through the attribute. -/
def toTriples : List ℚ → List Vec3
  | x :: y :: z :: rest => ⟨x, y, z⟩ :: toTriples rest
  | _ => []

/-- The persisted `customGeometry` record. -/
structure CustomGeom where
  ctype : String
  vertices : List ℚ
  normals : List ℚ
  uvs : List ℚ
  indices : List ℕ
  parameters : Option GeomParams
deriving DecidableEq, Repr

/-- firestoreService.ts, serializeGeometry: dump every attribute's raw array
(empty when absent) and the `parameters` bag (`{}` when absent).  The
`'custom'` type tag is attached by the spread at the call sites in
objectToFirestore. -/
def serializeGeometry (geometry : ThreeGeometry) : CustomGeom :=
  { ctype := "custom",
    vertices := flat3 geometry.positions,
    normals := flat3 geometry.normals,
    uvs := geometry.uvs,
    indices := geometry.indices,
    parameters := some (geometry.params.getD GeomParams.empty) }

/-- Triangles of an index buffer, three indices at a time (a short tail is
ignored, as the source loop reads past `count` only in malformed input). -/
def triplesOfIdx : List ℕ → List (ℕ × ℕ × ℕ)
  | a :: b :: c :: rest => (a, b, c) :: triplesOfIdx rest
  | _ => []

def addAt (l : List Vec3) (i : ℕ) (v : Vec3) : List Vec3 :=
  l.set i (vadd (l.getD i v0) v)

/-- Face-normal accumulation loop of THREE.BufferGeometry.computeVertexNormals:
for each triangle (vA, vB, vC) accumulate cross(pC - pB, pA - pB) into the
three vertex slots of a zero-initialised normal attribute of the same count
as the position attribute. -/
def accumNormals (pos : List Vec3) (tris : List (ℕ × ℕ × ℕ)) : List Vec3 :=
  tris.foldl
    (fun ns t =>
      let pA := pos.getD t.1 v0
      let pB := pos.getD t.2.1 v0
      let pC := pos.getD t.2.2 v0
      let n := cross (vsub pC pB) (vsub pA pB)
      addAt (addAt (addAt ns t.1 n) t.2.1 n) t.2.2 n)
    (List.replicate pos.length v0)

/-- THREE.BufferGeometry.computeVertexNormals: no-op without a position
attribute; otherwise allocate a normal attribute of the position count and
accumulate face normals (indexed or unindexed).  The final per-vertex
`normalize()` pass rescales each accumulated vector by its Euclidean length —
an irrational factor not representable in ℚ and read by no verified claim —
and never changes the attribute's count, so it is not applied here. -/
def computeVertexNormals (geometry : ThreeGeometry) : ThreeGeometry :=
  if geometry.positions = [] then geometry
  else
    let tris :=
      if geometry.indices ≠ [] then triplesOfIdx geometry.indices
      else triplesOfIdx (List.range geometry.positions.length)
    { geometry with normals := accumNormals geometry.positions tris }

/-- firestoreService.ts, deserializeGeometry. -/
def deserializeGeometry (customGeometry : CustomGeom) : ThreeGeometry :=
  let g0 : ThreeGeometry :=
    { cls := .buffer, params := none, positions := [], normals := [], uvs := [], indices := [] }
  let g1 := if customGeometry.vertices ≠ [] then
      { g0 with positions := toTriples customGeometry.vertices } else g0
  let g2 := if customGeometry.normals ≠ [] then
      { g1 with normals := toTriples customGeometry.normals } else g1
  let g3 := if customGeometry.uvs ≠ [] then { g2 with uvs := customGeometry.uvs } else g2
  let g4 := if customGeometry.indices ≠ [] then
      { g3 with indices := customGeometry.indices } else g3
  let g5 :=
    match customGeometry.parameters with
    | some p => { g4 with params := some p }
    | none => g4
  if customGeometry.normals = [] then computeVertexNormals g5 else g5

/-- ASCII case folding of one character (`String.prototype.toLowerCase`; the
names the classifier is applied to are ASCII). -/
def lowerChar (c : Char) : Char :=
  if 65 ≤ c.toNat ∧ c.toNat ≤ 90 then Char.ofNat (c.toNat + 32) else c

def listIsPrefixOf : List Char → List Char → Bool
  | [], _ => true
  | _ :: _, [] => false
  | a :: as, b :: bs => a == b && listIsPrefixOf as bs

/-- `hay.includes(needle)` over character lists. -/
def containsSubList (needle : List Char) : List Char → Bool
  | [] => listIsPrefixOf needle []
  | c :: rest => listIsPrefixOf needle (c :: rest) || containsSubList needle rest

def containsSub (hay needle : String) : Bool :=
  containsSubList needle.data hay.data

def lowerString (s : String) : String :=
  String.mk (s.data.map lowerChar)

/-- firestoreService.ts, isCustomGeometry. -/
def isCustomGeometry (geometry : ThreeGeometry) (name : String) : Bool :=
  let nameIsCustom :=
    ["star", "heart", "torus", "custom"].any
      (fun customName => containsSub (lowerString name) customName)
  let isTorusGeometry := isTorusInstance geometry.cls
  let hasStandardParams := geometry.params.isSome &&
    (isBoxInstance geometry.cls || isSphereInstance geometry.cls ||
     isCylinderInstance geometry.cls || isConeInstance geometry.cls)
  nameIsCustom || isTorusGeometry || !hasStandardParams

structure MaterialRec where
  color : String
  opacity : ℚ
  transparent : Bool
deriving DecidableEq, Repr

/-- A THREE.Mesh as held in the store: geometry, standard material (the
`materialParams` extras metalness/roughness are carried by no claim and are
omitted), transform and the THREE-level visibility flag. -/
structure Object3D where
  geometry : ThreeGeometry
  material : MaterialRec
  position : Vec3
  rotation : Vec3
  scale : Vec3
  visible : Bool
deriving DecidableEq, Repr

/-- The persisted object record (scoping ids and server timestamps are
attached outside the translated fragment and are read by no claim). -/
structure FirestoreObjectRec where
  id : Option String
  name : String
  type : String
  position : Vec3
  rotation : Vec3
  scale : Vec3
  color : String
  opacity : ℚ
  visible : Bool
  locked : Bool
  groupId : Option String
  geometryParams : Option GeomParams
  customGeometry : Option CustomGeom
deriving DecidableEq, Repr

/-- The (unreachable, see c1) ConeGeometry serialization branch of
objectToFirestore. -/
def coneParamsOf (g : ThreeGeometry) : GeomParams :=
  { GeomParams.empty with
    radius := some ((g.params.bind GeomParams.radius).getD (mkRat 1 2)),
    height := some ((g.params.bind GeomParams.height).getD 1),
    radialSegments := some ((g.params.bind GeomParams.radialSegments).getD 32) }

def boxParamsOf (g : ThreeGeometry) : GeomParams :=
  { GeomParams.empty with
    width := some ((g.params.bind GeomParams.width).getD 1),
    height := some ((g.params.bind GeomParams.height).getD 1),
    depth := some ((g.params.bind GeomParams.depth).getD 1) }

def sphereParamsOf (g : ThreeGeometry) : GeomParams :=
  { GeomParams.empty with
    radius := some ((g.params.bind GeomParams.radius).getD (mkRat 1 2)),
    widthSegments := some ((g.params.bind GeomParams.widthSegments).getD 32),
    heightSegments := some ((g.params.bind GeomParams.heightSegments).getD 16) }

def cylinderParamsOf (g : ThreeGeometry) : GeomParams :=
  { GeomParams.empty with
    radiusTop := some ((g.params.bind GeomParams.radiusTop).getD (mkRat 1 2)),
    radiusBottom := some ((g.params.bind GeomParams.radiusBottom).getD (mkRat 1 2)),
    height := some ((g.params.bind GeomParams.height).getD 1),
    radialSegments := some ((g.params.bind GeomParams.radialSegments).getD 32) }

/-- firestoreService.ts, objectToFirestore, for a mesh: transform and material
extraction, then the custom/standard geometry classification and the
instanceof chain over the geometry's runtime class. -/
def objectToFirestore (object : Object3D) (name : String) (id : Option String) : FirestoreObjectRec :=
  let base : FirestoreObjectRec :=
    { id := id, name := name, type := "Mesh",
      position := object.position, rotation := object.rotation, scale := object.scale,
      color := object.material.color, opacity := object.material.opacity,
      visible := object.visible, locked := false,
      groupId := none, geometryParams := none, customGeometry := none }
  let geometry := object.geometry
  if isCustomGeometry geometry name then
    let cg0 := serializeGeometry geometry
    let cg :=
      if isTorusInstance geometry.cls then
        { cg0 with
          ctype := "torus",
          parameters := some { GeomParams.empty with
            radius := geometry.params.bind GeomParams.radius,
            tube := geometry.params.bind GeomParams.tube,
            radialSegments := geometry.params.bind GeomParams.radialSegments,
            tubularSegments := geometry.params.bind GeomParams.tubularSegments,
            arc := geometry.params.bind GeomParams.arc } }
      else cg0
    { base with type := "CustomMesh", customGeometry := some cg }
  else if isBoxInstance geometry.cls then
    { base with geometryParams := some (boxParamsOf geometry) }
  else if isSphereInstance geometry.cls then
    { base with geometryParams := some (sphereParamsOf geometry) }
  else if isCylinderInstance geometry.cls then
    { base with geometryParams := some (cylinderParamsOf geometry) }
  else if isConeInstance geometry.cls then
    { base with geometryParams := some (coneParamsOf geometry) }
  else
    { base with type := "CustomMesh", customGeometry := some (serializeGeometry geometry) }

/-- firestoreService.ts, firestoreToObject: geometry reconstruction
(custom/torus first, then the geometryParams field dispatch), then material
and transform. -/
def firestoreToObject (data : FirestoreObjectRec) : Option Object3D :=
  if data.type == "Mesh" || data.type == "CustomMesh" then
    let geometry : ThreeGeometry :=
      match data.customGeometry with
      | some cg =>
        if cg.ctype == "torus" && cg.parameters.isSome then
          torusGeometry
            (jsOr (cg.parameters.bind GeomParams.radius) 1)
            (jsOr (cg.parameters.bind GeomParams.tube) (mkRat 2 5))
            (jsOr (cg.parameters.bind GeomParams.radialSegments) 8)
            (jsOr (cg.parameters.bind GeomParams.tubularSegments) 16)
            (jsOr (cg.parameters.bind GeomParams.arc) (qmul mathPI 2))
        else deserializeGeometry cg
      | none =>
        match data.geometryParams with
        | some gp =>
          if gp.width.isSome then
            boxGeometry gp.width gp.height gp.depth
          else if gp.radius.isSome && gp.widthSegments.isSome then
            sphereGeometry gp.radius gp.widthSegments gp.heightSegments
          else if gp.radiusTop.isSome then
            cylinderGeometry gp.radiusTop gp.radiusBottom gp.height gp.radialSegments
          else if gp.radius.isSome && gp.radialSegments.isSome then
            coneGeometry gp.radius gp.height gp.radialSegments
          else boxGeometry (some 1) (some 1) (some 1)
        | none => boxGeometry (some 1) (some 1) (some 1)
    some
      { geometry := geometry,
        material :=
          { color := data.color, opacity := data.opacity,
            transparent := decide (data.opacity < 1) },
        position := data.position, rotation := data.rotation, scale := data.scale,
        visible := data.visible }
  else none

/-- A persisted record of type Mesh carrying only `geometryParams`, as
produced for a standard parametric shape. -/
def mkMeshRecord (gp : GeomParams) : FirestoreObjectRec :=
  { id := none, name := "Shape", type := "Mesh",
    position := v0, rotation := v0, scale := ⟨1, 1, 1⟩,
    color := "#44aa88", opacity := 1, visible := true, locked := false,
    groupId := none, geometryParams := some gp, customGeometry := none }

/-- Deserialize a parametric record, then serialize the resulting mesh and
return its `geometryParams`. -/
def roundTripParams (gp : GeomParams) (name : String) : Option GeomParams :=
  match firestoreToObject (mkMeshRecord gp) with
  | none => none
  | some mesh => (objectToFirestore mesh name none).geometryParams

/-- A fully specified cone parameter set. -/
def coneSampleParams : GeomParams :=
  { GeomParams.empty with radius := some 2, height := some 3, radialSegments := some 8 }

/-- What the round trip actually returns for that cone. -/
def coneSampleCylindrified : GeomParams :=
  { GeomParams.empty with
    radiusTop := some (mkRat 1 2), radiusBottom := some (mkRat 1 2),
    height := some 3, radialSegments := some 8 }

/-! ### Scene state store (src/store/sceneStore.ts) -/

inductive LightType where
  | directional
  | point
  | spot
deriving DecidableEq, Repr

/-- A live THREE light handle, as configured by the store's light factory.
Fields a given light class does not have are 0. -/
structure ThreeLightHandle where
  kind : LightType
  position : List ℚ
  target : List ℚ
  color : String
  intensity : ℚ
  distance : ℚ
  decay : ℚ
  angle : ℚ
  penumbra : ℚ
  castShadow : Bool
  visible : Bool
deriving DecidableEq, Repr

/-- `Math.PI / 3` as an exact rational (the numerator of `mathPI` is coprime
to 3, so this is the exact quotient). -/
def mathPIover3 : ℚ := mkRat 884279719003555 (3 * 281474976710656)

/-- sceneStore.ts, createLight: every constructor is invoked with color
`#ffffff` and intensity 1; point and spot lights get distance 0 and decay 2,
spot lights angle π/3 and penumbra 0; `castShadow` is set to true afterwards;
`visible` keeps the THREE default true.  A PointLight has no target. -/
def createLight (type : LightType) (position : List ℚ) (target : List ℚ) : ThreeLightHandle :=
  match type with
  | .directional =>
    { kind := .directional, position := position, target := target,
      color := "#ffffff", intensity := 1, distance := 0, decay := 0,
      angle := 0, penumbra := 0, castShadow := true, visible := true }
  | .point =>
    { kind := .point, position := position, target := [0, 0, 0],
      color := "#ffffff", intensity := 1, distance := 0, decay := 2,
      angle := 0, penumbra := 0, castShadow := true, visible := true }
  | .spot =>
    { kind := .spot, position := position, target := target,
      color := "#ffffff", intensity := 1, distance := 0, decay := 2,
      angle := mathPIover3, penumbra := 0, castShadow := true, visible := true }

structure Light where
  id : String
  name : String
  type : LightType
  position : List ℚ
  target : List ℚ
  intensity : ℚ
  color : String
  visible : Bool
  castShadow : Bool
  distance : ℚ
  decay : ℚ
  angle : ℚ
  penumbra : ℚ
  object : Option ThreeLightHandle
  firestoreId : Option String
deriving DecidableEq, Repr

structure Group where
  id : String
  name : String
  expanded : Bool
  visible : Bool
  locked : Bool
  objectIds : List String
  firestoreId : Option String
deriving DecidableEq, Repr

/-- One entry of the store's `objects` array. -/
structure SceneObj where
  id : String
  object : Object3D
  name : String
  visible : Bool
  locked : Bool
  groupId : Option String
  firestoreId : Option String
deriving DecidableEq, Repr

structure SelectedElements where
  vertices : List ℕ
  edges : List ℕ
  faces : List ℕ
deriving DecidableEq, Repr

structure DraggedVertex where
  indices : List ℕ
  position : Vec3
  initialPosition : Vec3
deriving DecidableEq, Repr

structure HistoryState where
  objects : List SceneObj
  groups : List Group
  lights : List Light
deriving DecidableEq, Repr

instance : Inhabited HistoryState := ⟨⟨[], [], []⟩⟩

/-- The slice of the zustand store the verified operations read or write.
Purely presentational fields (camera, grid settings, placement workflow,
subscription handles) are read by none of them and are omitted.  Selection
is the selected entry's local id (heap identity of THREE objects is modelled
by ids). -/
structure SceneState where
  objects : List SceneObj
  groups : List Group
  lights : List Light
  selectedObject : Option String
  selectedLight : Option String
  selectedElements : SelectedElements
  draggedVertex : Option DraggedVertex
  history : List HistoryState
  historyIndex : Int
  canUndo : Bool
  canRedo : Bool
  hasUnsavedChanges : Bool
  currentProjectId : Option String
  currentUserId : Option String
deriving DecidableEq, Repr

/-- The store's initial values. -/
def initialState : SceneState :=
  { objects := [], groups := [], lights := [],
    selectedObject := none, selectedLight := none,
    selectedElements := { vertices := [], edges := [], faces := [] },
    draggedVertex := none,
    history := [], historyIndex := -1,
    canUndo := false, canRedo := false, hasUnsavedChanges := false,
    currentProjectId := none, currentUserId := none }

/-- sceneStore.ts, cloneObject, for a mesh: clone geometry and material and
copy position/rotation/scale.  The fresh THREE.Mesh starts with the
constructor default `visible = true`; the source's flag is not copied. -/
def cloneObject (obj : Object3D) : Object3D :=
  { obj with visible := true }

/-- The deep-copied snapshot built by saveToHistory: objects with cloned
meshes, value-copied groups, and lights with the live handle dropped (the
JSON round trip erases the `object` key). -/
def snapshotOf (s : SceneState) : HistoryState :=
  { objects := s.objects.map (fun obj => { obj with object := cloneObject obj.object }),
    groups := s.groups,
    lights := s.lights.map (fun light => { light with object := none }) }

/-- sceneStore.ts, saveToHistory: truncate forward history, push the
snapshot, shift the oldest entry once the stack exceeds 50, reset the index
to the top; `markUnsavedChanges` runs at the end. -/
def saveToHistory (s : SceneState) : SceneState :=
  let newHistory0 := s.history.take (s.historyIndex + 1).toNat ++ [snapshotOf s]
  let newHistory := if 50 < newHistory0.length then newHistory0.drop 1 else newHistory0
  { s with
    history := newHistory,
    historyIndex := (newHistory.length : Int) - 1,
    canUndo := true,
    canRedo := false,
    hasUnsavedChanges := true }

/-- sceneStore.ts, undo. -/
def undo (s : SceneState) : SceneState :=
  if s.historyIndex ≤ 0 then s
  else
    let previousState := s.history.getD (s.historyIndex - 1).toNat default
    { s with
      objects := previousState.objects,
      groups := previousState.groups,
      lights := previousState.lights.map (fun light =>
        { light with object := some (createLight light.type light.position light.target) }),
      historyIndex := s.historyIndex - 1,
      canUndo := decide (0 < s.historyIndex - 1),
      canRedo := true,
      selectedObject := none,
      selectedLight := none }

/-- sceneStore.ts, redo. -/
def redo (s : SceneState) : SceneState :=
  if (s.history.length : Int) - 1 ≤ s.historyIndex then s
  else
    let nextState := s.history.getD (s.historyIndex + 1).toNat default
    { s with
      objects := nextState.objects,
      groups := nextState.groups,
      lights := nextState.lights.map (fun light =>
        { light with object := some (createLight light.type light.position light.target) }),
      historyIndex := s.historyIndex + 1,
      canUndo := true,
      canRedo := decide (s.historyIndex + 1 < (s.history.length : Int) - 1),
      selectedObject := none,
      selectedLight := none }

/-- The repeated group-lock lookup
`obj.groupId && groups.find(g => g.id === obj.groupId)?.locked`. -/
def groupLockedFor (s : SceneState) (groupId : Option String) : Bool :=
  match groupId with
  | none => false
  | some gid => ((s.groups.find? (fun g => g.id == gid)).map Group.locked).getD false

/-- sceneStore.ts, isObjectLocked: an object is blocked when it is locked
itself or belongs to a locked group.  moveObjectsToGroup and the drag
handlers inline exactly this check. -/
def isObjectLocked (s : SceneState) (objectId : String) : Bool :=
  match s.objects.find? (fun o => o.id == objectId) with
  | none => false
  | some obj => obj.locked || groupLockedFor s obj.groupId

/-- sceneStore.ts, addObject.  `newId` stands for the generated local uuid;
`outcome` is the result of the awaited saveObject write-back (`none` =
rejected).  The local append happens first; on success the continuation
attaches the returned persisted id; failure leaves the entry untouched; the
deferred saveToHistory commit runs in every case. -/
def addObject (s : SceneState) (newId : String) (object : Object3D) (name : String)
    (outcome : Option String) : SceneState :=
  let newObject : SceneObj :=
    { id := newId, object := object, name := name,
      visible := true, locked := false, groupId := none, firestoreId := none }
  let s1 := { s with objects := s.objects ++ [newObject] }
  let s2 :=
    if s.currentProjectId.isSome && s.currentUserId.isSome then
      match outcome with
      | some firestoreId =>
        { s1 with objects := s1.objects.map (fun obj =>
            if obj.id == newId then { obj with firestoreId := some firestoreId } else obj) }
      | none => s1
    else s1
  saveToHistory s2

set_option linter.unusedVariables false in
/-- sceneStore.ts, removeObject.  `deleteSucceeds` is the outcome of the
awaited remote delete; the catch block logs it and the local removal
proceeds regardless (hence the argument is never read). -/
def removeObject (s : SceneState) (id : String) (deleteSucceeds : Bool) : SceneState :=
  match s.objects.find? (fun o => o.id == id) with
  | none => s
  | some objectToRemove =>
    if objectToRemove.locked then s
    else if groupLockedFor s objectToRemove.groupId then s
    else
      let updatedGroups := s.groups.map (fun group =>
        { group with objectIds := group.objectIds.filter (fun objId => objId != id) })
      let s1 :=
        { s with
          objects := s.objects.filter (fun obj => obj.id != id),
          groups := updatedGroups,
          selectedObject := if s.selectedObject == some id then none else s.selectedObject }
      saveToHistory s1

/-- sceneStore.ts, toggleVisibility. -/
def toggleVisibility (s : SceneState) (id : String) : SceneState :=
  match s.objects.find? (fun o => o.id == id) with
  | none => s
  | some objectToToggle =>
    if objectToToggle.locked then s
    else if groupLockedFor s objectToToggle.groupId then s
    else
      let newVisibility := !objectToToggle.visible
      let updatedObjects := s.objects.map (fun obj =>
        if obj.id == id then { obj with visible := newVisibility } else obj)
      let newSelectedObject :=
        match updatedObjects.find? (fun obj => obj.id == id) with
        | some toggledObject =>
          if !toggledObject.visible && s.selectedObject == some toggledObject.id then none
          else s.selectedObject
        | none => s.selectedObject
      { s with
        objects := updatedObjects,
        selectedObject := newSelectedObject,
        hasUnsavedChanges := true }

/-- sceneStore.ts, toggleLock: only membership in a locked group is checked;
the object's own locked flag is merely inverted. -/
def toggleLock (s : SceneState) (id : String) : SceneState :=
  match s.objects.find? (fun o => o.id == id) with
  | none => s
  | some objectToToggle =>
    if groupLockedFor s objectToToggle.groupId then s
    else
      let newLockState := !objectToToggle.locked
      let updatedObjects := s.objects.map (fun obj =>
        if obj.id == id then { obj with locked := newLockState } else obj)
      let newSelectedObject :=
        match updatedObjects.find? (fun obj => obj.id == id) with
        | some toggledObject =>
          if toggledObject.locked && s.selectedObject == some toggledObject.id then none
          else s.selectedObject
        | none => s.selectedObject
      { s with
        objects := updatedObjects,
        selectedObject := newSelectedObject,
        hasUnsavedChanges := true }

/-- sceneStore.ts, updateObjectName. -/
def updateObjectName (s : SceneState) (id : String) (name : String) : SceneState :=
  match s.objects.find? (fun o => o.id == id) with
  | none => s
  | some objectToUpdate =>
    if objectToUpdate.locked then s
    else if groupLockedFor s objectToUpdate.groupId then s
    else
      { s with
        objects := s.objects.map (fun obj =>
          if obj.id == id then { obj with name := name } else obj),
        hasUnsavedChanges := true }

/-- sceneStore.ts, addObjectToGroup (local step; the two remote write-backs
do not touch local state). -/
def addObjectToGroup (s : SceneState) (objectId groupId : String) : SceneState :=
  if (((s.objects.find? (fun o => o.id == objectId)).map SceneObj.locked).getD false) ||
     (((s.groups.find? (fun g => g.id == groupId)).map Group.locked).getD false) then s
  else
    { s with
      objects := s.objects.map (fun obj =>
        if obj.id == objectId then { obj with groupId := some groupId } else obj),
      groups := s.groups.map (fun group =>
        if group.id == groupId then { group with objectIds := group.objectIds ++ [objectId] }
        else group),
      hasUnsavedChanges := true }

/-- sceneStore.ts, removeObjectFromGroup (local step). -/
def removeObjectFromGroup (s : SceneState) (objectId : String) : SceneState :=
  match s.objects.find? (fun o => o.id == objectId) with
  | none => s
  | some obj =>
    match obj.groupId with
    | none => s
    | some gid =>
      if obj.locked || (((s.groups.find? (fun g => g.id == gid)).map Group.locked).getD false)
          then s
      else
        { s with
          objects := s.objects.map (fun o =>
            if o.id == objectId then { o with groupId := none } else o),
          groups := s.groups.map (fun g =>
            if g.id == gid then
              { g with objectIds := g.objectIds.filter (fun i => i != objectId) }
            else g),
          hasUnsavedChanges := true }

/-- sceneStore.ts, moveObjectsToGroup (local step): refuse if any moved
object is blocked or the target group is locked; strip the moved ids from
every group, append them to the target, and point every moved object at the
target. -/
def moveObjectsToGroup (s : SceneState) (objectIds : List String) (groupId : Option String) :
    SceneState :=
  if objectIds.any (fun id => isObjectLocked s id) then s
  else if groupLockedFor s groupId then s
  else
    let updatedGroups := s.groups.map (fun group =>
      { group with objectIds := group.objectIds.filter (fun id => !(objectIds.contains id)) })
    let finalGroups :=
      match groupId with
      | some gid =>
        updatedGroups.map (fun group =>
          if group.id == gid then { group with objectIds := group.objectIds ++ objectIds }
          else group)
      | none => updatedGroups
    { s with
      groups := finalGroups,
      objects := s.objects.map (fun obj =>
        if objectIds.contains obj.id then { obj with groupId := groupId } else obj),
      hasUnsavedChanges := true }

/-- The remote write-back loop of moveObjectsToGroup: one updateObject call
per moved object that has a persisted id, each wrapped in its own try/catch
(`fails` says which persisted ids reject), so every sibling is attempted and
the loop's attempts do not depend on the failures. -/
def moveObjectsWriteBackResults (s : SceneState) (objectIds : List String)
    (fails : String → Bool) : List (String × Bool) :=
  if s.currentProjectId.isSome && s.currentUserId.isSome then
    objectIds.filterMap (fun objectId =>
      match (s.objects.find? (fun o => o.id == objectId)).bind SceneObj.firestoreId with
      | some fid => some (fid, !fails fid)
      | none => none)
  else []

/-- The weld epsilon 1e-4, squared (the source compares
`pos.distanceTo(selectedPos) < 0.0001`). -/
def epsWeldSq : ℚ := mkRat 1 100000000

/-- The weld-group scan of startVertexDrag: every vertex index of the
attribute whose position lies within the weld epsilon of the picked
vertex's position (`pos.distanceTo(selectedPos) < 0.0001`). -/
def weldGroup (positions : List Vec3) (index : ℕ) : List ℕ :=
  (List.range positions.length).filter
    (fun i => decide (sqDist (positions.getD i v0) (positions.getD index v0) < epsWeldSq))

/-- sceneStore.ts, startVertexDrag: the weld group of the picked index
becomes the dragged index set and the vertex selection. -/
def startVertexDrag (s : SceneState) (index : ℕ) (position : Vec3) : SceneState :=
  match s.selectedObject.bind (fun sid => s.objects.find? (fun o => o.id == sid)) with
  | none => s
  | some selectedObj =>
    if isObjectLocked s selectedObj.id then s
    else
      let overlappingIndices := weldGroup selectedObj.object.geometry.positions index
      { s with
        draggedVertex := some
          { indices := overlappingIndices, position := position, initialPosition := position },
        selectedElements := { s.selectedElements with vertices := overlappingIndices } }

/-- sceneStore.ts, updateVertexDrag: write the new position into every
dragged index of the selected mesh's position attribute (in-place mutation,
modelled as a functional update of the owning entry), recompute normals, and
track the drag position. -/
def updateVertexDrag (s : SceneState) (position : Vec3) : SceneState :=
  match s.draggedVertex with
  | none => s
  | some draggedVertex =>
    match s.selectedObject.bind (fun sid => s.objects.find? (fun o => o.id == sid)) with
    | none => s
    | some selectedObj =>
      if isObjectLocked s selectedObj.id then s
      else
        let geometry := selectedObj.object.geometry
        let newPositions := draggedVertex.indices.foldl
          (fun arr i => arr.set i position) geometry.positions
        let newGeometry := computeVertexNormals { geometry with positions := newPositions }
        { s with
          objects := s.objects.map (fun obj =>
            if obj.id == selectedObj.id then
              { obj with object := { obj.object with geometry := newGeometry } }
            else obj),
          draggedVertex := some { draggedVertex with position := position } }

/-- Spec-side invariant (§3 of the spec): membership is bidirectional — an
object points at a group exactly when the group lists the object. -/
def bidirectional (s : SceneState) : Prop :=
  ∀ o ∈ s.objects, ∀ g ∈ s.groups, (o.groupId = some g.id ↔ o.id ∈ g.objectIds)

instance (s : SceneState) : Decidable (bidirectional s) := by
  unfold bidirectional
  infer_instance

/-- Spec-side reading of C6: the reconstructed live handle agrees with every
persisted parameter of the snapshot light. -/
def handleMatchesParams (l : Light) : Bool :=
  match l.object with
  | none => false
  | some h =>
    h.kind == l.type && h.position == l.position && h.target == l.target &&
    h.intensity == l.intensity && h.color == l.color && h.distance == l.distance &&
    h.decay == l.decay && h.angle == l.angle && h.penumbra == l.penumbra &&
    h.castShadow == l.castShadow && h.visible == l.visible


/-- C1.  The parametric round-trip law fails for cones: deserializing the
cone record {radius 2, height 3, radialSegments 8} and serializing the
resulting mesh yields cylinder parameters with both radii defaulted to 1/2 —
the radius is lost — because ConeGeometry is an instance of CylinderGeometry
and the cylinder branch of the instanceof chain fires first.  The dedicated
ConeGeometry branch (coneParamsOf), which is unreachable, would have returned
exactly the original parameters, so the claim matches the code's evident
intent and the branch ordering is the slip. -/
theorem c1_cone_serialize_evaluation :
    roundTripParams coneSampleParams "Cone" = some coneSampleCylindrified ∧
    coneSampleCylindrified ≠ coneSampleParams ∧
    coneParamsOf (coneGeometry coneSampleParams.radius coneSampleParams.height
      coneSampleParams.radialSegments) = coneSampleParams := by
  decide


/-! ### Concrete fixtures -/

namespace Fixtures

def unitBoxMesh : Object3D :=
  { geometry := boxGeometry (some 1) (some 1) (some 1),
    material := { color := "#44aa88", opacity := 1, transparent := false },
    position := v0, rotation := v0, scale := ⟨1, 1, 1⟩, visible := true }

/-- Object o1 sits in group g1; group g2 is empty; membership is
bidirectional. -/
def twoGroupState : SceneState :=
  { initialState with
    objects := [{ id := "o1", object := unitBoxMesh, name := "Box", visible := true,
                  locked := false, groupId := some "g1", firestoreId := none }],
    groups := [{ id := "g1", name := "Group 1", expanded := true, visible := true,
                 locked := false, objectIds := ["o1"], firestoreId := none },
               { id := "g2", name := "Group 2", expanded := true, visible := true,
                 locked := false, objectIds := [], firestoreId := none }] }

/-- A fresh store bound to a project. -/
def projectState : SceneState :=
  { initialState with
    currentProjectId := some "project-1", currentUserId := some "user-1" }

/-- The store after creating box A whose create write-back resolved with
persisted id fs-1, followed by the deferred history commit. -/
def afterCreateState : SceneState :=
  addObject projectState "a1" unitBoxMesh "Box" (some "fs-1")

/-- A snapshot light whose photometric parameters differ from the factory
defaults. -/
def redPointLight : Light :=
  { id := "l1", name := "Point Light 1", type := .point, position := [2, 2, 2],
    target := [0, 0, 0], intensity := 2, color := "#ff0000", visible := true,
    castShadow := true, distance := 10, decay := 2, angle := mathPIover3,
    penumbra := 0, object := none, firestoreId := none }

/-- Two history snapshots (the older one holds the red point light), index at
the top. -/
def lightHistoryState : SceneState :=
  { initialState with
    history := [{ objects := [], groups := [], lights := [redPointLight] },
                { objects := [], groups := [], lights := [] }],
    historyIndex := 1 }

end Fixtures

/-! ### C3: bidirectional group membership -/

/-- C3 counterexample.  Starting from a bidirectional state in which object
o1 belongs to group g1, adding o1 to the different group g2 via
addObjectToGroup leaves o1 inside g1's member list while o1's groupId now
points at g2: the bidirectional invariant is broken, refuting the claim for
exactly the already-grouped case it includes. -/
theorem c3_bidirectional_counterexample :
    bidirectional Fixtures.twoGroupState ∧
    ¬ bidirectional (addObjectToGroup Fixtures.twoGroupState "o1" "g2") := by
  constructor
  · decide
  · decide

/-! ### C5: create / commit / undo / redo round trip -/

/-- C5 counterexample.  After creating object A in an empty project scene and
committing (history length 1, index 0), undo does not yield an empty object
list: the initial empty state was never snapshotted, so undo is a guard-level
no-op and the list still holds A. -/
theorem c5_undo_counterexample :
    (undo Fixtures.afterCreateState).objects ≠ [] ∧
    (undo Fixtures.afterCreateState).objects.length = 1 ∧
    (undo Fixtures.afterCreateState).historyIndex = 0 := by
  decide

/-- C5 as amended: from an empty project scene, creating object A whose
write-back resolved to persisted id fid and committing gives history length 1
with index 0 and A carrying fid; the subsequent undo — and a redo — are
no-ops (the pre-creation state was never snapshotted), so the object list
still contains exactly A with its persisted id. -/
theorem c5_single_commit_amended (s0 : SceneState) (newId : String) (objA : Object3D)
    (nm : String) (fid : String)
    (hObjects : s0.objects = []) (hHistory : s0.history = [])
    (hIdx : s0.historyIndex = -1)
    (hProj : s0.currentProjectId.isSome = true) (hUser : s0.currentUserId.isSome = true) :
    (addObject s0 newId objA nm (some fid)).history.length = 1 ∧
    (addObject s0 newId objA nm (some fid)).historyIndex = 0 ∧
    (addObject s0 newId objA nm (some fid)).objects.map (fun o => (o.id, o.firestoreId)) =
      [(newId, some fid)] ∧
    undo (addObject s0 newId objA nm (some fid)) = addObject s0 newId objA nm (some fid) ∧
    redo (addObject s0 newId objA nm (some fid)) = addObject s0 newId objA nm (some fid) := by
  simp only [addObject, hObjects, hHistory, hIdx, hProj, hUser, Bool.and_self, if_true,
    saveToHistory, snapshotOf, List.nil_append, List.map_cons, List.map_nil, beq_self_eq_true,
    if_pos, List.take_nil, List.length_cons, List.length_nil]
  norm_num [undo, redo]

/-- C5 witness. -/
theorem c5_single_commit_witness :
    (Fixtures.projectState.objects = [] ∧ Fixtures.projectState.history = [] ∧
      Fixtures.projectState.historyIndex = -1 ∧
      Fixtures.projectState.currentProjectId.isSome = true ∧
      Fixtures.projectState.currentUserId.isSome = true) ∧
    ((addObject Fixtures.projectState "a1" Fixtures.unitBoxMesh "Box" (some "fs-1")).history.length = 1 ∧
      (addObject Fixtures.projectState "a1" Fixtures.unitBoxMesh "Box" (some "fs-1")).historyIndex = 0 ∧
      (addObject Fixtures.projectState "a1" Fixtures.unitBoxMesh "Box"
          (some "fs-1")).objects.map (fun o => (o.id, o.firestoreId)) = [("a1", some "fs-1")] ∧
      undo (addObject Fixtures.projectState "a1" Fixtures.unitBoxMesh "Box" (some "fs-1")) =
        addObject Fixtures.projectState "a1" Fixtures.unitBoxMesh "Box" (some "fs-1") ∧
      redo (addObject Fixtures.projectState "a1" Fixtures.unitBoxMesh "Box" (some "fs-1")) =
        addObject Fixtures.projectState "a1" Fixtures.unitBoxMesh "Box" (some "fs-1")) :=
  ⟨⟨rfl, rfl, rfl, rfl, rfl⟩,
    c5_single_commit_amended Fixtures.projectState "a1" Fixtures.unitBoxMesh "Box" "fs-1"
      rfl rfl rfl rfl rfl⟩

/-! ### C6: undo / redo pointer movement and light reconstruction -/

/-- C6 counterexample.  Undoing to a snapshot whose point light has intensity
2 and color #ff0000 rebuilds the live handle through the light factory, which
fixes intensity 1 and color #ffffff: the handle does not carry the
snapshot's photometric parameters, refuting the reconstruct-from-all-fields
reading. -/
theorem c6_light_handle_counterexample :
    (undo Fixtures.lightHistoryState).lights.map Light.intensity = [2] ∧
    (undo Fixtures.lightHistoryState).lights.map
      (fun l => l.object.map ThreeLightHandle.intensity) = [some 1] ∧
    (undo Fixtures.lightHistoryState).lights.all handleMatchesParams = false := by
  decide

/-- C6 as amended: undo and redo move the history index by exactly one when
it is in range and are identity no-ops otherwise; restoring a snapshot clears
both selections and rebuilds each light's live handle through the factory
from the snapshot's type, position and target only (intensity, color,
distance, decay, angle, penumbra, castShadow and visibility of the handle are
factory defaults, not the snapshot's values). -/
theorem c6_undo_redo_amended (s : SceneState) :
    (s.historyIndex ≤ 0 → undo s = s) ∧
    ((s.history.length : Int) - 1 ≤ s.historyIndex → redo s = s) ∧
    (0 < s.historyIndex →
      (undo s).historyIndex = s.historyIndex - 1 ∧
      (undo s).history = s.history ∧
      (undo s).selectedObject = none ∧
      (undo s).selectedLight = none ∧
      (undo s).objects = (s.history.getD (s.historyIndex - 1).toNat default).objects ∧
      (undo s).lights = (s.history.getD (s.historyIndex - 1).toNat default).lights.map
        (fun light =>
          { light with object := some (createLight light.type light.position light.target) })) ∧
    (s.historyIndex < (s.history.length : Int) - 1 →
      (redo s).historyIndex = s.historyIndex + 1 ∧
      (redo s).history = s.history ∧
      (redo s).selectedObject = none ∧
      (redo s).selectedLight = none ∧
      (redo s).objects = (s.history.getD (s.historyIndex + 1).toNat default).objects ∧
      (redo s).lights = (s.history.getD (s.historyIndex + 1).toNat default).lights.map
        (fun light =>
          { light with object := some (createLight light.type light.position light.target) })) := by
  refine ⟨fun h => ?_, fun h => ?_, fun h => ?_, fun h => ?_⟩
  · simp only [undo, if_pos h]
  · simp only [redo, if_pos h]
  · have hne : ¬ s.historyIndex ≤ 0 := by omega
    simp only [undo, if_neg hne]
    exact ⟨trivial, trivial, trivial, trivial, trivial, trivial⟩
  · have hne : ¬ (s.history.length : Int) - 1 ≤ s.historyIndex := by omega
    simp only [redo, if_neg hne]
    exact ⟨trivial, trivial, trivial, trivial, trivial, trivial⟩

/-- C6 witness: the in-range undo branch at the two-snapshot fixture. -/
theorem c6_undo_redo_witness :
    (0 < Fixtures.lightHistoryState.historyIndex) ∧
    ((undo Fixtures.lightHistoryState).historyIndex =
        Fixtures.lightHistoryState.historyIndex - 1 ∧
      (undo Fixtures.lightHistoryState).history = Fixtures.lightHistoryState.history ∧
      (undo Fixtures.lightHistoryState).selectedObject = none ∧
      (undo Fixtures.lightHistoryState).selectedLight = none ∧
      (undo Fixtures.lightHistoryState).objects =
        (Fixtures.lightHistoryState.history.getD
          (Fixtures.lightHistoryState.historyIndex - 1).toNat default).objects ∧
      (undo Fixtures.lightHistoryState).lights =
        (Fixtures.lightHistoryState.history.getD
          (Fixtures.lightHistoryState.historyIndex - 1).toNat default).lights.map
          (fun light =>
            { light with
              object := some (createLight light.type light.position light.target) })) :=
  ⟨by decide, (c6_undo_redo_amended Fixtures.lightHistoryState).2.2.1 (by decide)⟩

/-! ### Shared list lemmas -/

/-- In a list whose keys are distinct, searching for a member's key finds
exactly that member. -/
theorem find?_key_eq {α : Type} (key : α → String) (l : List α) (a : α)
    (ha : a ∈ l) (hnd : (l.map key).Nodup) :
    l.find? (fun x => key x == key a) = some a := by
  induction l with
  | nil => cases ha
  | cons b t ih =>
    simp only [List.map_cons, List.nodup_cons, List.mem_map] at hnd
    by_cases hbeq : key b = key a
    · rcases List.mem_cons.mp ha with rfl | hat
      · exact List.find?_cons_of_pos t (by simp)
      · exact absurd ⟨a, hat, hbeq.symm⟩ hnd.1
    · have hne : ((fun x => key x == key a) b) = false := by
        simp [hbeq]
      rcases List.mem_cons.mp ha with rfl | hat
      · simp at hne
      · rw [List.find?_cons_of_neg t (by simp [hne])]
        exact ih hat hnd.2

/-- Two members of a list with distinct keys that share a key are equal. -/
theorem eq_of_key_eq {α : Type} (key : α → String) {l : List α} {a b : α}
    (ha : a ∈ l) (hb : b ∈ l) (hk : key a = key b)
    (hnd : (l.map key).Nodup) : a = b := by
  induction l with
  | nil => cases ha
  | cons c t ih =>
    simp only [List.map_cons, List.nodup_cons, List.mem_map] at hnd
    rcases List.mem_cons.mp ha with rfl | hat <;> rcases List.mem_cons.mp hb with rfl | hbt
    · rfl
    · exact absurd ⟨b, hbt, hk.symm⟩ hnd.1
    · exact absurd ⟨a, hat, hk⟩ hnd.1
    · exact ih hat hbt hnd.2

/-! ### C4: lock cascade blocks rename / visibility / delete -/

/-- C4.  For an object that is locked, or that belongs to a locked group
(group ids and object ids being distinct, as generated), toggleVisibility,
updateObjectName and removeObject return the store state entirely unchanged,
reporting nothing. -/
theorem c4_lock_cascade_noop (s : SceneState) (o : SceneObj) (nm : String) (b : Bool)
    (hmem : o ∈ s.objects)
    (hndO : (s.objects.map SceneObj.id).Nodup)
    (hndG : (s.groups.map Group.id).Nodup)
    (hlock : o.locked = true ∨ ∃ g ∈ s.groups, o.groupId = some g.id ∧ g.locked = true) :
    toggleVisibility s o.id = s ∧ updateObjectName s o.id nm = s ∧
    removeObject s o.id b = s := by
  have hfind : s.objects.find? (fun x => x.id == o.id) = some o :=
    find?_key_eq SceneObj.id s.objects o hmem hndO
  rcases Bool.eq_false_or_eq_true o.locked with hol | hol
  · refine ⟨?_, ?_, ?_⟩ <;>
      simp [toggleVisibility, updateObjectName, removeObject, hfind, hol]
  · have hgl : groupLockedFor s o.groupId = true := by
      rcases hlock with h | ⟨g, hg, hgid, hglocked⟩
      · rw [hol] at h
        cases h
      · rw [hgid]
        show ((s.groups.find? (fun x => x.id == g.id)).map Group.locked).getD false = true
        rw [find?_key_eq Group.id s.groups g hg hndG]
        simpa using hglocked
    refine ⟨?_, ?_, ?_⟩ <;>
      simp [toggleVisibility, updateObjectName, removeObject, hfind, hol, hgl]

/-! Fixtures: a locked group containing an unlocked object, and a locked
lone object. -/
namespace Fixtures

def lockedGroupObj : SceneObj :=
  { id := "o1", object := unitBoxMesh, name := "Box", visible := true,
    locked := false, groupId := some "g1", firestoreId := none }

def lockedGroup : Group :=
  { id := "g1", name := "G", expanded := true, visible := true,
    locked := true, objectIds := ["o1"], firestoreId := none }

def lockedGroupState : SceneState :=
  { initialState with objects := [lockedGroupObj], groups := [lockedGroup] }

def lockedLoneObj : SceneObj :=
  { id := "o1", object := unitBoxMesh, name := "Box", visible := true,
    locked := true, groupId := none, firestoreId := none }

def lockedLoneState : SceneState :=
  { initialState with objects := [lockedLoneObj] }

end Fixtures

/-- C4 witness: the locked-group leg at a concrete state. -/
theorem c4_lock_cascade_witness :
    (Fixtures.lockedGroupObj ∈ Fixtures.lockedGroupState.objects ∧
      (Fixtures.lockedGroupState.objects.map SceneObj.id).Nodup ∧
      (Fixtures.lockedGroupState.groups.map Group.id).Nodup ∧
      (Fixtures.lockedGroupObj.locked = true ∨
        ∃ g ∈ Fixtures.lockedGroupState.groups,
          Fixtures.lockedGroupObj.groupId = some g.id ∧ g.locked = true)) ∧
    (toggleVisibility Fixtures.lockedGroupState Fixtures.lockedGroupObj.id =
        Fixtures.lockedGroupState ∧
      updateObjectName Fixtures.lockedGroupState Fixtures.lockedGroupObj.id "Renamed" =
        Fixtures.lockedGroupState ∧
      removeObject Fixtures.lockedGroupState Fixtures.lockedGroupObj.id true =
        Fixtures.lockedGroupState) := by
  refine ⟨⟨by decide, by decide, by decide,
    Or.inr ⟨Fixtures.lockedGroup, by decide, by decide, by decide⟩⟩, ?_⟩
  exact c4_lock_cascade_noop Fixtures.lockedGroupState Fixtures.lockedGroupObj "Renamed" true
    (by decide) (by decide) (by decide)
    (Or.inr ⟨Fixtures.lockedGroup, by decide, by decide, by decide⟩)

/-! ### C10: toggleLock ignores the object's own lock -/

/-- C10.  toggleLock is blocked only by membership in a locked group: if no
group of the state both carries the object's groupId and is locked, the call
flips the object's locked flag (even when the object itself is locked, so a
locked object outside locked groups can always be unlocked); if such a
locked group exists, the call leaves the state unchanged. -/
theorem c10_toggleLock_self_lock (s : SceneState) (o : SceneObj)
    (hmem : o ∈ s.objects)
    (hndO : (s.objects.map SceneObj.id).Nodup)
    (hndG : (s.groups.map Group.id).Nodup) :
    ((∀ g ∈ s.groups, o.groupId = some g.id → g.locked = false) →
      (toggleLock s o.id).objects = s.objects.map (fun x =>
        if x.id == o.id then { x with locked := !o.locked } else x)) ∧
    ((∃ g ∈ s.groups, o.groupId = some g.id ∧ g.locked = true) →
      toggleLock s o.id = s) := by
  have hfind : s.objects.find? (fun x => x.id == o.id) = some o :=
    find?_key_eq SceneObj.id s.objects o hmem hndO
  constructor
  · intro hfreeg
    have hgl : groupLockedFor s o.groupId = false := by
      cases hgid : o.groupId with
      | none => rfl
      | some gid =>
        show ((s.groups.find? (fun x => x.id == gid)).map Group.locked).getD false = false
        cases hf : s.groups.find? (fun x => x.id == gid) with
        | none => rfl
        | some g =>
          have hgmem := List.mem_of_find?_eq_some hf
          have hgidg : g.id = gid := by simpa using List.find?_some hf
          have hLf := hfreeg g hgmem (by rw [hgid, hgidg])
          simpa using hLf
    simp [toggleLock, hfind, hgl]
  · rintro ⟨g, hg, hgid, hglocked⟩
    have hgl : groupLockedFor s o.groupId = true := by
      rw [hgid]
      show ((s.groups.find? (fun x => x.id == g.id)).map Group.locked).getD false = true
      rw [find?_key_eq Group.id s.groups g hg hndG]
      simpa using hglocked
    simp [toggleLock, hfind, hgl]

/-- C10 witness: a locked, ungrouped object gets its flag flipped (unlocked). -/
theorem c10_toggleLock_witness :
    (Fixtures.lockedLoneObj ∈ Fixtures.lockedLoneState.objects ∧
      (Fixtures.lockedLoneState.objects.map SceneObj.id).Nodup ∧
      (Fixtures.lockedLoneState.groups.map Group.id).Nodup ∧
      (∀ g ∈ Fixtures.lockedLoneState.groups,
        Fixtures.lockedLoneObj.groupId = some g.id → g.locked = false)) ∧
    (toggleLock Fixtures.lockedLoneState Fixtures.lockedLoneObj.id).objects =
      Fixtures.lockedLoneState.objects.map (fun x =>
        if x.id == Fixtures.lockedLoneObj.id then
          { x with locked := !Fixtures.lockedLoneObj.locked }
        else x) := by
  refine ⟨⟨by decide, by decide, by decide, by decide⟩, ?_⟩
  exact (c10_toggleLock_self_lock Fixtures.lockedLoneState Fixtures.lockedLoneObj
    (by decide) (by decide) (by decide)).1 (by decide)

/-! ### C9: optimistic mutation, no rollback -/

/-- The local entry addObject appends before its write-back resolves. -/
def newSceneObj (newId : String) (object : Object3D) (name : String) : SceneObj :=
  { id := newId, object := object, name := name,
    visible := true, locked := false, groupId := none, firestoreId := none }

/-- The per-object write-back attempts do not depend on which calls fail
(each is caught individually). -/
theorem writeback_attempts_indep (s : SceneState) (objectIds : List String)
    (fails1 fails2 : String → Bool) :
    (moveObjectsWriteBackResults s objectIds fails1).map Prod.fst =
      (moveObjectsWriteBackResults s objectIds fails2).map Prod.fst := by
  unfold moveObjectsWriteBackResults
  split
  · induction objectIds with
    | nil => rfl
    | cons a t ih =>
      simp only [List.filterMap_cons]
      cases h : (s.objects.find? (fun o => o.id == a)).bind SceneObj.firestoreId with
      | none => simpa [h] using ih
      | some fid => simpa [h] using ih
  · rfl

/-- C9.  addObject appends the entity to local state before the write-back;
a failed write-back leaves the entity in place with no persisted id, a
successful one only attaches the returned id; removeObject's local result is
the same whether the remote delete succeeded or failed; and the per-object
write-backs of a moveObjectsToGroup batch are all attempted no matter which
siblings fail. -/
theorem c9_optimistic_no_rollback (s : SceneState) (newId : String) (object : Object3D)
    (nm : String) :
    ((addObject s newId object nm none).objects =
      s.objects ++ [newSceneObj newId object nm]) ∧
    (∀ fid, s.currentProjectId.isSome = true → s.currentUserId.isSome = true →
      (addObject s newId object nm (some fid)).objects =
        (s.objects ++ [newSceneObj newId object nm]).map (fun obj =>
          if obj.id == newId then { obj with firestoreId := some fid } else obj)) ∧
    (∀ id b1 b2, removeObject s id b1 = removeObject s id b2) ∧
    (∀ objectIds fails,
      (moveObjectsWriteBackResults s objectIds fails).map Prod.fst =
        (moveObjectsWriteBackResults s objectIds (fun _ => false)).map Prod.fst) := by
  refine ⟨?_, fun fid hP hU => ?_, fun id b1 b2 => rfl, fun objectIds fails =>
    writeback_attempts_indep s objectIds fails (fun _ => false)⟩
  · by_cases h : (s.currentProjectId.isSome && s.currentUserId.isSome) = true <;>
      simp [addObject, saveToHistory, newSceneObj, h]
  · simp [addObject, saveToHistory, newSceneObj, hP, hU]

/-- C9 witness: the successful write-back leg at a concrete project state. -/
theorem c9_optimistic_witness :
    (Fixtures.projectState.currentProjectId.isSome = true ∧
      Fixtures.projectState.currentUserId.isSome = true) ∧
    (addObject Fixtures.projectState "n1" Fixtures.unitBoxMesh "Box" (some "fs-9")).objects =
      (Fixtures.projectState.objects ++ [newSceneObj "n1" Fixtures.unitBoxMesh "Box"]).map
        (fun obj => if obj.id == "n1" then { obj with firestoreId := some "fs-9" } else obj) :=
  ⟨⟨rfl, rfl⟩,
    (c9_optimistic_no_rollback Fixtures.projectState "n1" Fixtures.unitBoxMesh "Box").2.1
      "fs-9" rfl rfl⟩

/-! ### C2: bounded history with oldest-first eviction -/

def applyN (f : SceneState → SceneState) : ℕ → SceneState → SceneState
  | 0, s => s
  | n + 1, s => applyN f n (f s)

theorem applyN_comm (f : SceneState → SceneState) (n : ℕ) (s : SceneState) :
    applyN f n (f s) = f (applyN f n s) := by
  induction n generalizing s with
  | zero => rfl
  | succ n ih =>
    show applyN f n (f (f s)) = f (applyN f n (f s))
    rw [ih (f s)]

theorem applyN_succ (f : SceneState → SceneState) (n : ℕ) (s : SceneState) :
    applyN f (n + 1) s = f (applyN f n s) :=
  applyN_comm f n s

/-- A run of committed edits: each step applies an arbitrary edit to the
current state and then commits it with saveToHistory. -/
def commitSeq (edits : ℕ → SceneState → SceneState) : ℕ → SceneState
  | 0 => initialState
  | n + 1 => saveToHistory (edits n (commitSeq edits n))

theorem undo_nonpos (s : SceneState) (h : s.historyIndex ≤ 0) : undo s = s := by
  unfold undo
  rw [if_pos h]

theorem undo_history (s : SceneState) :
    (undo s).history = s.history ∧
    (undo s).historyIndex =
      (if s.historyIndex ≤ 0 then s.historyIndex else s.historyIndex - 1) := by
  unfold undo
  split
  · simp_all
  · simp_all

theorem commitSeq_inv (edits : ℕ → SceneState → SceneState)
    (hE : ∀ n s, (edits n s).history = s.history ∧ (edits n s).historyIndex = s.historyIndex)
    (n : ℕ) :
    (commitSeq edits n).history.length = min n 50 ∧
    (commitSeq edits n).historyIndex = ((min n 50 : ℕ) : Int) - 1 := by
  induction n with
  | zero => exact ⟨rfl, rfl⟩
  | succ n ih =>
    have hEh := (hE n (commitSeq edits n)).1
    have hEi := (hE n (commitSeq edits n)).2
    have hl := ih.1
    show (saveToHistory (edits n (commitSeq edits n))).history.length = min (n + 1) 50 ∧
      (saveToHistory (edits n (commitSeq edits n))).historyIndex =
        ((min (n + 1) 50 : ℕ) : Int) - 1
    simp only [saveToHistory, hEh, hEi, ih.2]
    have htoNat : ((((min n 50 : ℕ) : Int)) - 1 + 1).toNat = min n 50 := by omega
    rw [htoNat]
    rw [show min n 50 = (commitSeq edits n).history.length from hl.symm, List.take_length]
    by_cases hlt : 50 < ((commitSeq edits n).history ++
        [snapshotOf (edits n (commitSeq edits n))]).length
    · simp only [hlt, if_true, List.length_drop]
      simp only [List.length_append, List.length_cons, List.length_nil] at hlt ⊢
      constructor
      · omega
      · push_cast
        omega
    · simp only [hlt, if_false]
      simp only [List.length_append, List.length_cons, List.length_nil] at hlt ⊢
      constructor
      · omega
      · push_cast
        omega

/-- C2.  The history stack never exceeds 50 snapshots; after 51 sequential
committed edits its length is exactly 50 and the index is 49; the 51st
commit evicted the oldest snapshot (the new stack is the old one minus its
head, plus the new snapshot); undo from the latest state steps the index
back one at a time, reaching the earliest retained snapshot (index 0) after
49 steps, and a 50th undo is a no-op. -/
theorem c2_history_bound_and_eviction (edits : ℕ → SceneState → SceneState)
    (hE : ∀ n s, (edits n s).history = s.history ∧ (edits n s).historyIndex = s.historyIndex) :
    (∀ n, (commitSeq edits n).history.length ≤ 50) ∧
    (commitSeq edits 51).history.length = 50 ∧
    (commitSeq edits 51).historyIndex = 49 ∧
    (commitSeq edits 51).history =
      (commitSeq edits 50).history.drop 1 ++
        [snapshotOf (edits 50 (commitSeq edits 50))] ∧
    (applyN undo 49 (commitSeq edits 51)).historyIndex = 0 ∧
    applyN undo 50 (commitSeq edits 51) = applyN undo 49 (commitSeq edits 51) := by
  have hinv := commitSeq_inv edits hE
  have hlen : ∀ n, (commitSeq edits n).history.length = min n 50 := fun n => (hinv n).1
  have hidx : ∀ n, (commitSeq edits n).historyIndex = ((min n 50 : ℕ) : Int) - 1 :=
    fun n => (hinv n).2
  have hundo : ∀ (m : ℕ) (s : SceneState), (m : Int) ≤ s.historyIndex →
      (applyN undo m s).history = s.history ∧
      (applyN undo m s).historyIndex = s.historyIndex - m := by
    intro m
    induction m with
    | zero =>
      intro s hm
      refine ⟨rfl, ?_⟩
      show s.historyIndex = s.historyIndex - ((0 : ℕ) : Int)
      simp
    | succ m ih =>
      intro s hm
      have hpos : ¬ s.historyIndex ≤ 0 := by
        push_cast at hm
        omega
      have h1 := undo_history s
      have h2 := ih (undo s) (by rw [h1.2, if_neg hpos]; push_cast at hm ⊢; omega)
      constructor
      · show (applyN undo m (undo s)).history = s.history
        rw [h2.1, h1.1]
      · show (applyN undo m (undo s)).historyIndex = s.historyIndex - ((m + 1 : ℕ) : Int)
        rw [h2.2, h1.2, if_neg hpos]
        push_cast
        omega
  have hidx51 : (commitSeq edits 51).historyIndex = 49 := by
    rw [hidx 51]
    norm_num
  have h49 : ((49 : ℕ) : Int) ≤ (commitSeq edits 51).historyIndex := by
    rw [hidx51]
    norm_num
  have happ49 := hundo 49 (commitSeq edits 51) h49
  have happIdx : (applyN undo 49 (commitSeq edits 51)).historyIndex = 0 := by
    rw [happ49.2, hidx51]
    norm_num
  refine ⟨fun n => by rw [hlen n]; omega, by rw [hlen 51]; omega, hidx51, ?_, happIdx, ?_⟩
  · show (saveToHistory (edits 50 (commitSeq edits 50))).history = _
    simp only [saveToHistory, (hE 50 (commitSeq edits 50)).1, (hE 50 (commitSeq edits 50)).2,
      hidx 50]
    have htoNat : ((((min 50 50 : ℕ) : Int)) - 1 + 1).toNat = min 50 50 := by omega
    rw [htoNat]
    rw [show min 50 50 = (commitSeq edits 50).history.length from (hlen 50).symm,
      List.take_length]
    have hcond : 50 < ((commitSeq edits 50).history ++
        [snapshotOf (edits 50 (commitSeq edits 50))]).length := by
      simp only [List.length_append, List.length_cons, List.length_nil]
      rw [hlen 50]
      omega
    simp only [hcond, if_true]
    rw [List.drop_append_of_le_length (by rw [hlen 50]; omega)]
  · rw [show (50 : ℕ) = 49 + 1 from by norm_num, applyN_succ]
    exact undo_nonpos _ (by simp [happIdx])

/-- C2 witness: the identity-edit run. -/
theorem c2_history_witness :
    (∀ (n : ℕ) (s : SceneState),
      ((fun (_ : ℕ) (s : SceneState) => s) n s).history = s.history ∧
      ((fun (_ : ℕ) (s : SceneState) => s) n s).historyIndex = s.historyIndex) ∧
    ((commitSeq (fun _ s => s) 51).history.length = 50 ∧
      (commitSeq (fun _ s => s) 51).historyIndex = 49) :=
  ⟨fun _ _ => ⟨rfl, rfl⟩,
    ⟨(c2_history_bound_and_eviction (fun _ s => s) (fun _ _ => ⟨rfl, rfl⟩)).2.1,
     (c2_history_bound_and_eviction (fun _ s => s) (fun _ _ => ⟨rfl, rfl⟩)).2.2.1⟩⟩

/-! ### C3: the amended membership-mutation invariants -/

/-- The membership invariant as a relation between an object list and a
group list (`bidirectional` is this relation at the store's lists). -/
def bidirectionalLists (objects : List SceneObj) (groups : List Group) : Prop :=
  ∀ o ∈ objects, ∀ g ∈ groups, (o.groupId = some g.id ↔ o.id ∈ g.objectIds)

theorem bidirectional_def (s : SceneState) :
    bidirectional s ↔ bidirectionalLists s.objects s.groups :=
  Iff.rfl

theorem bidirectionalLists_remove (objects : List SceneObj) (groups : List Group)
    (objectId gid : String) (obj : SceneObj)
    (hndO : (objects.map SceneObj.id).Nodup)
    (hB : bidirectionalLists objects groups)
    (hobjmem : obj ∈ objects) (hobjid : obj.id = objectId)
    (hgid : obj.groupId = some gid) :
    bidirectionalLists
      (objects.map (fun o => if o.id == objectId then { o with groupId := none } else o))
      (groups.map (fun g =>
        if g.id == gid then
          { g with objectIds := g.objectIds.filter (fun i => i != objectId) }
        else g)) := by
  intro o2 ho2 g2 hg2
  simp only [List.mem_map] at ho2 hg2
  obtain ⟨o, ho, rfl⟩ := ho2
  obtain ⟨g, hg, rfl⟩ := hg2
  by_cases hoid : o.id = objectId
  · have hoeq : o = obj :=
      eq_of_key_eq SceneObj.id ho hobjmem (by rw [hoid, hobjid]) hndO
    by_cases hgidg : g.id = gid
    · rw [if_pos (by simp [hoid]), if_pos (by simp [hgidg])]
      refine iff_of_false (by simp) ?_
      simp [List.mem_filter, hoid]
    · rw [if_pos (by simp [hoid]), if_neg (by simp [hgidg])]
      refine iff_of_false (by simp) ?_
      intro hmem
      have h2 := (hB o ho g hg).mpr hmem
      rw [hoeq, hgid] at h2
      exact hgidg (Option.some.inj h2).symm
  · by_cases hgidg : g.id = gid
    · rw [if_neg (by simp [hoid]), if_pos (by simp [hgidg])]
      show o.groupId = some g.id ↔ o.id ∈ g.objectIds.filter (fun i => i != objectId)
      rw [List.mem_filter]
      rw [hB o ho g hg]
      simp [hoid]
    · rw [if_neg (by simp [hoid]), if_neg (by simp [hgidg])]
      exact hB o ho g hg

theorem bidirectionalLists_move_none (objects : List SceneObj) (groups : List Group)
    (objectIds : List String)
    (hB : bidirectionalLists objects groups) :
    bidirectionalLists
      (objects.map (fun o =>
        if objectIds.contains o.id then { o with groupId := none } else o))
      (groups.map (fun g =>
        { g with objectIds := g.objectIds.filter (fun i => !(objectIds.contains i)) })) := by
  intro o2 ho2 g2 hg2
  simp only [List.mem_map] at ho2 hg2
  obtain ⟨o, ho, rfl⟩ := ho2
  obtain ⟨g, hg, rfl⟩ := hg2
  by_cases hc : o.id ∈ objectIds
  · rw [if_pos (by simp [hc])]
    refine iff_of_false (by simp) ?_
    simp [List.mem_filter, hc]
  · rw [if_neg (by simp [hc])]
    show o.groupId = some g.id ↔
      o.id ∈ g.objectIds.filter (fun i => !(objectIds.contains i))
    rw [List.mem_filter]
    rw [hB o ho g hg]
    simp [hc]

theorem bidirectionalLists_move_some (objects : List SceneObj) (groups : List Group)
    (objectIds : List String) (gid : String)
    (hB : bidirectionalLists objects groups) :
    bidirectionalLists
      (objects.map (fun o =>
        if objectIds.contains o.id then { o with groupId := some gid } else o))
      ((groups.map (fun g =>
        { g with objectIds := g.objectIds.filter (fun i => !(objectIds.contains i)) })).map
        (fun g =>
          if g.id == gid then { g with objectIds := g.objectIds ++ objectIds } else g)) := by
  intro o2 ho2 g2 hg2
  simp only [List.map_map, List.mem_map, Function.comp] at ho2 hg2
  obtain ⟨o, ho, rfl⟩ := ho2
  obtain ⟨g, hg, rfl⟩ := hg2
  by_cases hc : o.id ∈ objectIds <;> by_cases hgidg : g.id = gid
  · rw [if_pos (by simp [hc]), if_pos (by simp [hgidg])]
    exact iff_of_true (by rw [hgidg]) (by simp [hc])
  · rw [if_pos (by simp [hc]), if_neg (by simp [hgidg])]
    refine iff_of_false ?_ ?_
    · intro h
      exact hgidg (Option.some.inj h).symm
    · simp [List.mem_filter, hc]
  · rw [if_neg (by simp [hc]), if_pos (by simp [hgidg])]
    show o.groupId = some g.id ↔
      o.id ∈ g.objectIds.filter (fun i => !(objectIds.contains i)) ++ objectIds
    rw [List.mem_append, List.mem_filter]
    rw [hB o ho g hg]
    simp [hc]
  · rw [if_neg (by simp [hc]), if_neg (by simp [hgidg])]
    show o.groupId = some g.id ↔
      o.id ∈ g.objectIds.filter (fun i => !(objectIds.contains i))
    rw [List.mem_filter]
    rw [hB o ho g hg]
    simp [hc]

theorem bidirectionalLists_add (objects : List SceneObj) (groups : List Group)
    (objectId groupId : String)
    (hB : bidirectionalLists objects groups)
    (hfree : ∀ o ∈ objects, o.id = objectId → o.groupId = none) :
    bidirectionalLists
      (objects.map (fun o =>
        if o.id == objectId then { o with groupId := some groupId } else o))
      (groups.map (fun g =>
        if g.id == groupId then { g with objectIds := g.objectIds ++ [objectId] }
        else g)) := by
  intro o2 ho2 g2 hg2
  simp only [List.mem_map] at ho2 hg2
  obtain ⟨o, ho, rfl⟩ := ho2
  obtain ⟨g, hg, rfl⟩ := hg2
  by_cases hoid : o.id = objectId
  · have hnone : o.groupId = none := hfree o ho hoid
    have hnotmem : o.id ∉ g.objectIds := by
      intro hmem
      have h2 := (hB o ho g hg).mpr hmem
      rw [hnone] at h2
      cases h2
    by_cases hgidg : g.id = groupId
    · rw [if_pos (by simp [hoid]), if_pos (by simp [hgidg])]
      exact iff_of_true (by rw [hgidg]) (by simp [hoid])
    · rw [if_pos (by simp [hoid]), if_neg (by simp [hgidg])]
      refine iff_of_false ?_ hnotmem
      intro h
      exact hgidg (Option.some.inj h).symm
  · by_cases hgidg : g.id = groupId
    · rw [if_neg (by simp [hoid]), if_pos (by simp [hgidg])]
      show o.groupId = some g.id ↔ o.id ∈ g.objectIds ++ [objectId]
      rw [List.mem_append]
      rw [hB o ho g hg]
      simp [hoid]
    · rw [if_neg (by simp [hoid]), if_neg (by simp [hgidg])]
      exact hB o ho g hg

theorem removeObjectFromGroup_bidirectional (s : SceneState)
    (hndO : (s.objects.map SceneObj.id).Nodup) (hB : bidirectional s)
    (objectId : String) :
    bidirectional (removeObjectFromGroup s objectId) := by
  unfold removeObjectFromGroup
  split
  · exact hB
  rename_i obj hf
  split
  · exact hB
  rename_i gid hgid
  split
  · exact hB
  · exact bidirectionalLists_remove s.objects s.groups objectId gid obj hndO hB
      (List.mem_of_find?_eq_some hf) (by simpa using List.find?_some hf) hgid

theorem moveObjectsToGroup_bidirectional (s : SceneState) (hB : bidirectional s)
    (objectIds : List String) (groupId : Option String) :
    bidirectional (moveObjectsToGroup s objectIds groupId) := by
  unfold moveObjectsToGroup
  split
  · exact hB
  split
  · exact hB
  cases groupId with
  | none => exact bidirectionalLists_move_none s.objects s.groups objectIds hB
  | some gid => exact bidirectionalLists_move_some s.objects s.groups objectIds gid hB

theorem addObjectToGroup_bidirectional (s : SceneState) (hB : bidirectional s)
    (objectId groupId : String)
    (hfree : ∀ o ∈ s.objects, o.id = objectId → o.groupId = none) :
    bidirectional (addObjectToGroup s objectId groupId) := by
  unfold addObjectToGroup
  split
  · exact hB
  · exact bidirectionalLists_add s.objects s.groups objectId groupId hB hfree

set_option linter.unusedVariables false in
/-- C3 as amended.  With distinct object and group ids and a bidirectional
starting state, removeObjectFromGroup and moveObjectsToGroup always preserve
the bidirectional membership invariant, and addObjectToGroup preserves it
provided the object does not already belong to a group; in the excluded case
(an object already in one group added to another) addObjectToGroup breaks
the invariant, as c3_bidirectional_counterexample shows, because it never
removes the object from its previous group's member list. -/
theorem c3_membership_mutations_amended (s : SceneState)
    (hndO : (s.objects.map SceneObj.id).Nodup)
    (hndG : (s.groups.map Group.id).Nodup)
    (hB : bidirectional s) :
    (∀ objectId, bidirectional (removeObjectFromGroup s objectId)) ∧
    (∀ objectIds groupId, bidirectional (moveObjectsToGroup s objectIds groupId)) ∧
    (∀ objectId groupId,
      (∀ o ∈ s.objects, o.id = objectId → o.groupId = none) →
      bidirectional (addObjectToGroup s objectId groupId)) :=
  ⟨fun objectId => removeObjectFromGroup_bidirectional s hndO hB objectId,
   fun objectIds groupId => moveObjectsToGroup_bidirectional s hB objectIds groupId,
   fun objectId groupId hfree => addObjectToGroup_bidirectional s hB objectId groupId hfree⟩

/-- C3 witness: moving o1 from g1 to g2 through moveObjectsToGroup (the
mutation that does handle the already-grouped case) keeps the invariant. -/
theorem c3_membership_witness :
    ((Fixtures.twoGroupState.objects.map SceneObj.id).Nodup ∧
      (Fixtures.twoGroupState.groups.map Group.id).Nodup ∧
      bidirectional Fixtures.twoGroupState) ∧
    bidirectional (moveObjectsToGroup Fixtures.twoGroupState ["o1"] (some "g2")) :=
  ⟨⟨by decide, by decide, by decide⟩,
    (c3_membership_mutations_amended Fixtures.twoGroupState (by decide) (by decide)
      (by decide)).2.1 ["o1"] (some "g2")⟩

/-! ### C7: vertex weld group drag -/

theorem getD_set_ne (l : List Vec3) (i j : ℕ) (p d : Vec3) (h : i ≠ j) :
    (l.set i p).getD j d = l.getD j d := by
  induction l generalizing i j with
  | nil => rfl
  | cons a t ih =>
    cases i with
    | zero =>
      cases j with
      | zero => exact absurd rfl h
      | succ j2 => rfl
    | succ i2 =>
      cases j with
      | zero => rfl
      | succ j2 => exact ih i2 j2 (fun hh => h (by rw [hh]))

theorem getD_set_self (l : List Vec3) (i : ℕ) (p d : Vec3) (h : i < l.length) :
    (l.set i p).getD i d = p := by
  induction l generalizing i with
  | nil => cases h
  | cons a t ih =>
    cases i with
    | zero => rfl
    | succ i2 => exact ih i2 (by simpa using h)

theorem foldl_set_getD_not_mem (idxs : List ℕ) (l : List Vec3) (p d : Vec3) (i : ℕ)
    (hnot : i ∉ idxs) :
    (idxs.foldl (fun arr j => arr.set j p) l).getD i d = l.getD i d := by
  induction idxs generalizing l with
  | nil => rfl
  | cons j t ih =>
    show (t.foldl (fun arr j => arr.set j p) (l.set j p)).getD i d = l.getD i d
    rw [ih (l.set j p) (fun h => hnot (List.mem_cons_of_mem j h))]
    exact getD_set_ne l j i p d (fun hh => hnot (hh ▸ List.mem_cons_self j t))

theorem foldl_set_getD_mem (idxs : List ℕ) (l : List Vec3) (p d : Vec3) (i : ℕ)
    (hmem : i ∈ idxs) (hlt : i < l.length) :
    (idxs.foldl (fun arr j => arr.set j p) l).getD i d = p := by
  induction idxs generalizing l with
  | nil => cases hmem
  | cons j t ih =>
    show (t.foldl (fun arr j => arr.set j p) (l.set j p)).getD i d = p
    by_cases hit : i ∈ t
    · exact ih (l.set j p) hit (by rw [List.length_set]; exact hlt)
    · have hij : i = j := by
        rcases List.mem_cons.mp hmem with h | h
        · exact h
        · exact absurd h hit
      rw [foldl_set_getD_not_mem t (l.set j p) p d i hit, hij]
      exact getD_set_self l j p d (hij ▸ hlt)

theorem groupLockedFor_false (s : SceneState) (o : SceneObj)
    (hfree : ∀ g ∈ s.groups, o.groupId = some g.id → g.locked = false) :
    groupLockedFor s o.groupId = false := by
  cases hgid : o.groupId with
  | none => rfl
  | some gid =>
    show ((s.groups.find? (fun x => x.id == gid)).map Group.locked).getD false = false
    cases hf : s.groups.find? (fun x => x.id == gid) with
    | none => rfl
    | some g =>
      have hgmem := List.mem_of_find?_eq_some hf
      have hgidg : g.id = gid := by simpa using List.find?_some hf
      simpa using hfree g hgmem (by rw [hgid, hgidg])

theorem isObjectLocked_eq_false (s : SceneState) (o : SceneObj)
    (hfind : s.objects.find? (fun x => x.id == o.id) = some o)
    (hlockO : o.locked = false)
    (hfree : ∀ g ∈ s.groups, o.groupId = some g.id → g.locked = false) :
    isObjectLocked s o.id = false := by
  unfold isObjectLocked
  rw [hfind]
  simp [hlockO, groupLockedFor_false s o hfree]

theorem computeVertexNormals_positions (g : ThreeGeometry) :
    (computeVertexNormals g).positions = g.positions := by
  unfold computeVertexNormals
  split
  · rfl
  · rfl

/-- What updateVertexDrag does to the entry owning the selected mesh: its
position attribute gets every dragged index set to the drag position, then
normals are recomputed. -/
theorem updateVertexDrag_spec (s1 : SceneState) (o : SceneObj) (dv : DraggedVertex)
    (p : Vec3)
    (hdv : s1.draggedVertex = some dv)
    (hbind : s1.selectedObject.bind (fun sid => s1.objects.find? (fun x => x.id == sid)) =
      some o)
    (hmem : o ∈ s1.objects)
    (hlock : isObjectLocked s1 o.id = false) :
    { o with
      object := { o.object with
        geometry := computeVertexNormals { o.object.geometry with
          positions := dv.indices.foldl (fun arr i => arr.set i p) o.object.geometry.positions } } } ∈
      (updateVertexDrag s1 p).objects := by
  unfold updateVertexDrag
  simp only [hdv, hbind, hlock, Bool.false_eq_true, if_false]
  exact List.mem_map.mpr ⟨o, hmem, by simp⟩

set_option linter.unusedVariables false in
/-- C7.  If the object o is selected and unblocked, and S is exactly the set
of indices whose vertex lies within the weld epsilon of the picked index's
vertex (the picked index included), then startVertexDrag computes S as the
weld group and updateVertexDrag to p sets every index of S to exactly p. -/
theorem c7_weld_group_drag (s : SceneState) (o : SceneObj) (S : List ℕ) (index : ℕ)
    (startPos p : Vec3)
    (hsel : s.selectedObject = some o.id)
    (hmem : o ∈ s.objects)
    (hndO : (s.objects.map SceneObj.id).Nodup)
    (hlockO : o.locked = false)
    (hlockG : ∀ g ∈ s.groups, o.groupId = some g.id → g.locked = false)
    (hidxS : index ∈ S)
    (hSbound : ∀ i ∈ S, i < o.object.geometry.positions.length)
    (hSclose : ∀ i ∈ S,
      sqDist (o.object.geometry.positions.getD i v0)
        (o.object.geometry.positions.getD index v0) < epsWeldSq)
    (hSfar : ∀ i, i < o.object.geometry.positions.length → i ∉ S →
      ¬ sqDist (o.object.geometry.positions.getD i v0)
          (o.object.geometry.positions.getD index v0) < epsWeldSq) :
    ∃ dv, (startVertexDrag s index startPos).draggedVertex = some dv ∧
      (∀ i, i ∈ dv.indices ↔ i ∈ S) ∧
      ∃ o2 ∈ (updateVertexDrag (startVertexDrag s index startPos) p).objects,
        o2.id = o.id ∧ ∀ i ∈ S, o2.object.geometry.positions.getD i v0 = p := by
  have hfind : s.objects.find? (fun x => x.id == o.id) = some o :=
    find?_key_eq SceneObj.id s.objects o hmem hndO
  have hbind : s.selectedObject.bind (fun sid => s.objects.find? (fun x => x.id == sid)) =
      some o := by
    rw [hsel]
    exact hfind
  have hlock : isObjectLocked s o.id = false := isObjectLocked_eq_false s o hfind hlockO hlockG
  have hs1 : startVertexDrag s index startPos =
      { s with
        draggedVertex := some
          { indices := weldGroup o.object.geometry.positions index,
            position := startPos, initialPosition := startPos },
        selectedElements := { s.selectedElements with
          vertices := weldGroup o.object.geometry.positions index } } := by
    unfold startVertexDrag
    rw [hbind]
    simp [hlock]
  have hweld : ∀ i, i ∈ weldGroup o.object.geometry.positions index ↔ i ∈ S := by
    intro i
    unfold weldGroup
    rw [List.mem_filter, List.mem_range]
    constructor
    · rintro ⟨hlt, hcl⟩
      by_contra hnot
      exact hSfar i hlt hnot (by simpa using hcl)
    · intro hi
      exact ⟨hSbound i hi, by simpa using hSclose i hi⟩
  rw [hs1]
  refine ⟨{ indices := weldGroup o.object.geometry.positions index,
            position := startPos, initialPosition := startPos }, rfl,
    fun i => hweld i, ?_⟩
  refine ⟨_, updateVertexDrag_spec _ o
    { indices := weldGroup o.object.geometry.positions index,
      position := startPos, initialPosition := startPos } p rfl hbind hmem hlock,
    rfl, ?_⟩
  intro i hiS
  show (computeVertexNormals { o.object.geometry with
    positions := (weldGroup o.object.geometry.positions index).foldl
      (fun arr j => arr.set j p) o.object.geometry.positions }).positions.getD i v0 = p
  rw [computeVertexNormals_positions]
  exact foldl_set_getD_mem _ _ p v0 i ((hweld i).mpr hiS) (hSbound i hiS)

/-! Fixtures for the drag and codec claims. -/

namespace Fixtures

/-- A 16-vertex patch in which exactly the vertices at indices 2, 5, 9 and
14 coincide (at the origin); every other vertex is at least distance 1 from
them. -/
def weldMesh : Object3D :=
  { geometry :=
      { cls := .buffer, params := none,
        positions := [⟨1, 0, 0⟩, ⟨2, 0, 0⟩, v0, ⟨4, 0, 0⟩, ⟨5, 0, 0⟩, v0, ⟨7, 0, 0⟩,
          ⟨8, 0, 0⟩, ⟨9, 0, 0⟩, v0, ⟨11, 0, 0⟩, ⟨12, 0, 0⟩, ⟨13, 0, 0⟩, ⟨14, 0, 0⟩, v0,
          ⟨16, 0, 0⟩],
        normals := [], uvs := [], indices := [] },
    material := { color := "#44aa88", opacity := 1, transparent := false },
    position := v0, rotation := v0, scale := ⟨1, 1, 1⟩, visible := true }

def weldObj : SceneObj :=
  { id := "w1", object := weldMesh, name := "Patch", visible := true,
    locked := false, groupId := none, firestoreId := none }

def weldState : SceneState :=
  { initialState with objects := [weldObj], selectedObject := some "w1" }

/-- One triangle with indices and no normals. -/
def triGeom : ThreeGeometry :=
  { cls := .buffer, params := none,
    positions := [v0, ⟨1, 0, 0⟩, ⟨0, 1, 0⟩],
    normals := [], uvs := [], indices := [0, 1, 2] }

end Fixtures

/-- C7 witness: the spec's S = {2,5,9,14} scenario, picking index 5 and
dragging to (7,8,9). -/
theorem c7_weld_group_witness :
    ((5 : ℕ) ∈ ([2, 5, 9, 14] : List ℕ) ∧
      (∀ i, i < Fixtures.weldObj.object.geometry.positions.length →
        i ∉ ([2, 5, 9, 14] : List ℕ) →
        ¬ sqDist (Fixtures.weldObj.object.geometry.positions.getD i v0)
            (Fixtures.weldObj.object.geometry.positions.getD 5 v0) < epsWeldSq)) ∧
    (∃ dv, (startVertexDrag Fixtures.weldState 5 v0).draggedVertex = some dv ∧
      (∀ i, i ∈ dv.indices ↔ i ∈ ([2, 5, 9, 14] : List ℕ)) ∧
      ∃ o2 ∈ (updateVertexDrag (startVertexDrag Fixtures.weldState 5 v0) ⟨7, 8, 9⟩).objects,
        o2.id = Fixtures.weldObj.id ∧
        ∀ i ∈ ([2, 5, 9, 14] : List ℕ),
          o2.object.geometry.positions.getD i v0 = ⟨7, 8, 9⟩) :=
  ⟨⟨by decide, by decide⟩,
    c7_weld_group_drag Fixtures.weldState Fixtures.weldObj [2, 5, 9, 14] 5 v0 ⟨7, 8, 9⟩
      rfl (by decide) (by decide) rfl (by decide) (by decide) (by decide) (by decide)
      (by decide)⟩

/-! ### C8: custom geometry round trip -/

theorem flat3_nil : flat3 [] = [] := rfl

theorem flat3_ne_nil (l : List Vec3) (h : l ≠ []) : flat3 l ≠ [] := by
  cases l with
  | nil => exact absurd rfl h
  | cons v t =>
    show v.x :: v.y :: v.z :: flat3 t ≠ []
    exact List.cons_ne_nil _ _

theorem flat3_length (l : List Vec3) : (flat3 l).length = 3 * l.length := by
  induction l with
  | nil => rfl
  | cons v t ih =>
    show (v.x :: v.y :: v.z :: flat3 t).length = 3 * (t.length + 1)
    simp only [List.length_cons, ih]
    omega

theorem toTriples_flat3 (l : List Vec3) : toTriples (flat3 l) = l := by
  induction l with
  | nil => rfl
  | cons v t ih =>
    show (⟨v.x, v.y, v.z⟩ : Vec3) :: toTriples (flat3 t) = v :: t
    rw [ih]

theorem addAt_length (l : List Vec3) (i : ℕ) (v : Vec3) : (addAt l i v).length = l.length := by
  unfold addAt
  exact List.length_set l i _

theorem foldl_length_preserved {β : Type} (f : List Vec3 → β → List Vec3)
    (hf : ∀ ns b, (f ns b).length = ns.length) (ts : List β) (ns : List Vec3) :
    (ts.foldl f ns).length = ns.length := by
  induction ts generalizing ns with
  | nil => rfl
  | cons b t ih =>
    show (t.foldl f (f ns b)).length = ns.length
    rw [ih (f ns b), hf]

theorem accumNormals_length (pos : List Vec3) (tris : List (ℕ × ℕ × ℕ)) :
    (accumNormals pos tris).length = pos.length := by
  unfold accumNormals
  exact (foldl_length_preserved _ (fun ns b => by simp [addAt_length]) tris _).trans
    (List.length_replicate _ _)

theorem computeVertexNormals_indices (g : ThreeGeometry) :
    (computeVertexNormals g).indices = g.indices := by
  unfold computeVertexNormals
  split
  · rfl
  · rfl

theorem computeVertexNormals_normals_length (g : ThreeGeometry) (h : ¬ g.positions = []) :
    (computeVertexNormals g).normals.length = g.positions.length := by
  unfold computeVertexNormals
  rw [if_neg h]
  exact accumNormals_length _ _

theorem if_ne_nil_eq {α : Type} [DecidableEq α] (l : List α) : (if l ≠ [] then l else []) = l := by
  split
  · rfl
  · simp_all

/-- deserializeGeometry, evaluated: the four attribute writes collapse to
conditional fields and the final normals recomputation fires exactly when
the record carried no normals. -/
theorem deserializeGeometry_eq (cg : CustomGeom) :
    deserializeGeometry cg =
      (if cg.normals = [] then
        computeVertexNormals
          { cls := .buffer,
            params := match cg.parameters with | some p => some p | none => none,
            positions := if cg.vertices ≠ [] then toTriples cg.vertices else [],
            normals := if cg.normals ≠ [] then toTriples cg.normals else [],
            uvs := if cg.uvs ≠ [] then cg.uvs else [],
            indices := if cg.indices ≠ [] then cg.indices else [] }
      else
        { cls := .buffer,
          params := match cg.parameters with | some p => some p | none => none,
          positions := if cg.vertices ≠ [] then toTriples cg.vertices else [],
          normals := if cg.normals ≠ [] then toTriples cg.normals else [],
          uvs := if cg.uvs ≠ [] then cg.uvs else [],
          indices := if cg.indices ≠ [] then cg.indices else [] }) := by
  unfold deserializeGeometry
  by_cases h1 : cg.vertices = [] <;> by_cases h2 : cg.normals = [] <;>
    by_cases h3 : cg.uvs = [] <;> by_cases h4 : cg.indices = [] <;>
    cases hp : cg.parameters <;>
    simp [h1, h2, h3, h4, hp]

/-- C8.  Serializing a custom mesh and deserializing the record preserves
the position and index buffers exactly (the raw vertex array has length
3 · count); and when the mesh supplied no normals, the deserialized geometry
carries a freshly computed, non-empty normal attribute. -/
theorem c8_custom_roundtrip (g : ThreeGeometry) (hP : g.positions ≠ []) :
    (deserializeGeometry (serializeGeometry g)).positions = g.positions ∧
    (deserializeGeometry (serializeGeometry g)).indices = g.indices ∧
    (serializeGeometry g).vertices.length = 3 * g.positions.length ∧
    (g.normals = [] → (deserializeGeometry (serializeGeometry g)).normals ≠ []) := by
  have hv : flat3 g.positions ≠ [] := flat3_ne_nil g.positions hP
  have hser : serializeGeometry g =
      { ctype := "custom", vertices := flat3 g.positions, normals := flat3 g.normals,
        uvs := g.uvs, indices := g.indices,
        parameters := some (g.params.getD GeomParams.empty) } := rfl
  refine ⟨?_, ?_, flat3_length g.positions, ?_⟩
  · rw [hser, deserializeGeometry_eq]
    split
    · rw [computeVertexNormals_positions]
      simp [hv, toTriples_flat3]
    · simp [hv, toTriples_flat3]
  · rw [hser, deserializeGeometry_eq]
    split
    · rw [computeVertexNormals_indices]
      exact if_ne_nil_eq g.indices
    · exact if_ne_nil_eq g.indices
  · intro hN
    rw [hser, deserializeGeometry_eq]
    rw [if_pos (by rw [hN]; rfl)]
    have hpos : (if flat3 g.positions ≠ [] then toTriples (flat3 g.positions) else []) =
        g.positions := by
      simp [hv, toTriples_flat3]
    intro hcontra
    have hlen := computeVertexNormals_normals_length
      { cls := .buffer,
        params := match (some (g.params.getD GeomParams.empty) : Option GeomParams) with
          | some p => some p
          | none => none,
        positions := if flat3 g.positions ≠ [] then toTriples (flat3 g.positions) else [],
        normals := if flat3 g.normals ≠ [] then toTriples (flat3 g.normals) else [],
        uvs := if g.uvs ≠ [] then g.uvs else [],
        indices := if g.indices ≠ [] then g.indices else [] }
      (by show ¬ (if flat3 g.positions ≠ [] then toTriples (flat3 g.positions) else []) = []
          rw [hpos]
          exact hP)
    rw [hcontra] at hlen
    simp only [List.length_nil] at hlen
    have : (if flat3 g.positions ≠ [] then toTriples (flat3 g.positions) else []).length ≠ 0 := by
      rw [hpos]
      simpa [List.length_eq_zero] using hP
    exact this hlen.symm

/-- C8 witness: one triangle with no normals; the round trip keeps buffers
and computes a non-empty normal attribute. -/
theorem c8_custom_roundtrip_witness :
    (Fixtures.triGeom.positions ≠ [] ∧
      (deserializeGeometry (serializeGeometry Fixtures.triGeom)).normals ≠ []) ∧
    ((deserializeGeometry (serializeGeometry Fixtures.triGeom)).positions =
        Fixtures.triGeom.positions ∧
      (deserializeGeometry (serializeGeometry Fixtures.triGeom)).indices =
        Fixtures.triGeom.indices ∧
      (serializeGeometry Fixtures.triGeom).vertices.length =
        3 * Fixtures.triGeom.positions.length ∧
      (Fixtures.triGeom.normals = [] →
        (deserializeGeometry (serializeGeometry Fixtures.triGeom)).normals ≠ [])) :=
  ⟨⟨by decide, by decide⟩, c8_custom_roundtrip Fixtures.triGeom (by decide)⟩

end SceneModel
